import Mathlib

/-!
# Verification of the `mpipeline` multi-stage pipeline executor

Shallow embedding of `src/mpipeline/pipeline.py` and
`src/mpipeline/pipeline_tqdm.py`.

Modelling conventions:
* Python exceptions are values of `PyExc`, carrying an object identity
  (`excId`) and a message (`msg`).  Two distinct `Exception("x")` objects in
  Python are not equal (`Exception.__eq__` is identity), so identity must be
  modelled separately from the message; `str(exc)` is modelled by `msg`.
* Raising code is modelled with `Except`.
* A worker's `__process__` hook is a function `α → Except PyExc α` over a
  single payload type `α` (the heterogeneously-typed Python stages embed into
  a sum type such as `Val` below).
* `pool.imap` delivers, for each submitted `(seq, payload)` pair and in
  submission order, either the task's result or the exception the task raised
  (a task exception is re-raised at the failing item's position when the
  consumer pulls it).  A stage's result stream is therefore a
  `List (Except (WorkerException α) (Nat × α × ℚ))`.
  `pool.imap_unordered` delivers the same multiset of results in completion
  order, modelled by a caller-supplied reordering function applied to the
  result stream.
* Elapsed wall-clock times measured by `perf_counter` are data: a time oracle
  `tm : Nat → Nat → ℚ` gives the elapsed time of (stage index, sequence
  number).  Rationals model the arithmetic performed on the measured floats
  (comparison with zero and division) exactly at the points the claims need.
-/

namespace MPipeline

/-- A Python exception object: identity plus message (`str(exc)`). -/
structure PyExc where
  excId : Nat
  msg : String
deriving DecidableEq, Repr

/-- `FORCE_EXIT_EXCEPTION = Exception("Force exit signal received")`
(pipeline.py line 30): the module-level sentinel object. -/
def FORCE_EXIT_EXCEPTION : PyExc := ⟨0, "Force exit signal received"⟩

/-- The `ZeroDivisionError` raised by Python's `1/rate` when `rate == 0`. -/
def ZERO_DIVISION_ERROR : PyExc := ⟨2, "division by zero"⟩

/-- Initial value of the module-level shared flag
`force_exit = manager.Value('bool', False)` (pipeline.py line 28). -/
def force_exit_init : Bool := false

/-- Modelled from the spec: `worker_exception.py` is not under `src/`.
`WorkerException` is the structured failure value
`(original_error, worker_type_name, offending_input_or_none)` (spec §3);
pipeline.py constructs it as `WorkerException(e, name, inp)` and reads
`e.orig_exc`, and `re_raise` surfaces it to the caller carrying these three
pieces of data. -/
structure WorkerException (α : Type) where
  orig_exc : PyExc
  worker_name : String
  inp : Option α
deriving DecidableEq, Repr

/-- Modelled from the spec: `stage.py` is not under `src/`.  A `Stage` is a
pure descriptor (spec §4.2); the only parts of it the executor's data path
uses are the worker's declared type name (for error reporting) and the
behaviour of the worker's `__process__` hook.  Worker construction and
`__local_init__` are assumed to succeed here (their failure path is
`_init_worker`, wrapped with `offending_input = none`). -/
structure Stage (α : Type) where
  workerName : String
  proc : α → Except PyExc α

/-- A stage whose worker's `__process__` hook behaves as the pure function
`f` and never raises. -/
def pureStage {α : Type} (name : String) (f : α → α) : Stage α :=
  ⟨name, fun v => Except.ok (f v)⟩

/-- A stage whose worker raises `exc` on every input. -/
def failStage {α : Type} (name : String) (exc : PyExc) : Stage α :=
  ⟨name, fun _ => Except.error exc⟩

/-- A stage whose worker raises `exc` on the payload `bad` and passes every
other payload through unchanged. -/
def failOnStage {α : Type} [DecidableEq α] (name : String) (exc : PyExc)
    (bad : α) : Stage α :=
  ⟨name, fun v => if v = bad then Except.error exc else Except.ok v⟩

/-- `_process_item` (pipeline.py lines 50-61): reads the shared `force_exit`
flag; if set, raises a `WorkerException` wrapping the sentinel without
invoking `__process__`; otherwise calls `__process__`, measures the elapsed
time, and returns `(seq_num, result, process_time)`; a raising hook is
wrapped as a `WorkerException` carrying the offending input. -/
def process_item {α : Type} (forceExitVal : Bool) (workerName : String)
    (proc : α → Except PyExc α) (elapsed : ℚ) (args : Nat × α) :
    Except (WorkerException α) (Nat × α × ℚ) :=
  if forceExitVal then
    Except.error ⟨FORCE_EXIT_EXCEPTION, workerName, none⟩
  else
    match proc args.2 with
    | Except.ok r => Except.ok (args.1, r, elapsed)
    | Except.error e => Except.error ⟨e, workerName, some args.2⟩

/-- The `progress` argument of `Pipeline.run`
(`ProgressType = Literal['total', 'stage', None]`). -/
inductive ProgressMode where
  | pTotal
  | pStage
  | pNone
deriving DecidableEq, Repr

/-- The state of `PipelineTQDM` (pipeline_tqdm.py) that can influence control
flow.  The tqdm bars themselves are display-only and are represented by the
predicate `stagePbarsNonempty` below; `stageTimes` is the per-stage
`deque(maxlen=100)` of recent times, `stageProcessed` / `stageTotalTimes`
the per-stage counters. -/
structure PipelineTQDM where
  showProgress : Bool
  showStageProgress : Bool
  total : Option Nat
  stageTimes : List (List ℚ)
  stageProcessed : List Nat
  stageTotalTimes : List ℚ
deriving DecidableEq, Repr

/-- `PipelineTQDM.__init__` (pipeline_tqdm.py lines 30-42). -/
def PipelineTQDM.init (nstages : Nat) (showP showSP : Bool)
    (total : Option Nat) : PipelineTQDM :=
  ⟨showP, showSP, total, List.replicate nstages [],
    List.replicate nstages 0, List.replicate nstages 0⟩

/-- Whether `init_progress_bars` (lines 44-68) created stage progress bars:
it returns early unless `show_progress`, and creates stage bars only when
`show_stage_progress and self.total` (Python truthiness: `None` and `0` are
falsy). -/
def PipelineTQDM.stagePbarsNonempty (p : PipelineTQDM) : Bool :=
  p.showProgress && p.showStageProgress &&
    (match p.total with
     | some n => decide (n ≠ 0)
     | none => false)

/-- `PipelineTQDM.update_stage_progress` (pipeline_tqdm.py lines 70-112).
The call to `update_main_progress` on the final stage and all string
formatting / bar updates are display-only and do not appear in the state.
After the guard, the counters are updated, then
`rate = 1/avg_time if avg_time > 0 else 0`; the subsequent `else` branch
computes `1/rate`, which raises `ZeroDivisionError` when `rate == 0`
(i.e. when the average recorded time is not positive).  On that exception
the partially-updated state is irrelevant because the run aborts. -/
def PipelineTQDM.update_stage_progress (p : PipelineTQDM) (stageIdx : Nat)
    (result_time : ℚ) : Except PyExc PipelineTQDM :=
  if p.showProgress && p.showStageProgress && p.stagePbarsNonempty then
    let processed := p.stageProcessed.set stageIdx
      (p.stageProcessed.getD stageIdx 0 + 1)
    let times0 := p.stageTimes.getD stageIdx []
    let times1 :=
      if times0.length < 100 then times0 ++ [result_time]
      else times0.drop 1 ++ [result_time]
    let times := p.stageTimes.set stageIdx times1
    let totals := p.stageTotalTimes.set stageIdx
      (p.stageTotalTimes.getD stageIdx 0 + result_time)
    let avg : ℚ := times1.sum / (times1.length : ℚ)
    let rate : ℚ := if 0 < avg then 1 / avg else 0
    if 1 ≤ rate then
      Except.ok ⟨p.showProgress, p.showStageProgress, p.total, times,
        processed, totals⟩
    else if rate = 0 then Except.error ZERO_DIVISION_ERROR
    else
      Except.ok ⟨p.showProgress, p.showStageProgress, p.total, times,
        processed, totals⟩
  else Except.ok p

/-- An exception propagating out of the stage chain to `run`'s handlers:
either a `WorkerException` (caught at pipeline.py line 210) or any other
exception (caught at line 216). -/
inductive RunExc (α : Type) where
  | workerExc (e : WorkerException α)
  | otherExc (e : PyExc)
deriving DecidableEq, Repr

/-- `Pipeline._process_stage` (pipeline.py lines 145-169) consuming one
stage's result stream: a `WorkerException` at some position aborts the
iteration there and propagates (the `isinstance` re-raise and the pool's own
re-raise of a task exception coincide behaviourally); for a successful item
the progress collaborator is updated *before* the item is yielded, so an
exception raised inside `update_stage_progress` aborts without yielding the
current item.  Yields `(seq_num, data)` pairs; the final stage's stripping
of `seq_num` (`is_final`) is applied by `run` below. -/
def process_stage {α : Type} :
    PipelineTQDM → Nat → List (Except (WorkerException α) (Nat × α × ℚ)) →
    List (Nat × α) × PipelineTQDM × Option (RunExc α)
  | prog, _, [] => ([], prog, none)
  | prog, _, (Except.error e) :: _ => ([], prog, some (RunExc.workerExc e))
  | prog, stageIdx, (Except.ok it) :: rest =>
    match prog.update_stage_progress stageIdx it.2.2 with
    | Except.error exc => ([], prog, some (RunExc.otherExc exc))
    | Except.ok prog1 =>
      let r := process_stage prog1 stageIdx rest
      ((it.1, it.2.1) :: r.1, r.2.1, r.2.2)

/-- The stage chain of `Pipeline.run` (pipeline.py lines 193-209): stage
`idx` maps `process_item` over its input pairs (that is what `pool.imap`
computes), the result stream is delivered in submission order for
`imap` and in completion order for `imap_unordered` — the completion order
is the caller-supplied `reorder idx` applied to the stream — and
`process_stage` consumes it.  An exception raised at stage `idx` on item
`j` reaches the consumer only after the final-stage outputs of the items
delivered before it, so an exception of a later stage (necessarily about an
earlier item) surfaces first: `r2.2.2 <|> r1.2.2`. -/
def runChain {α : Type} (fe : Bool) (tm : Nat → Nat → ℚ)
    (reorder : Nat → List (Except (WorkerException α) (Nat × α × ℚ)) →
      List (Except (WorkerException α) (Nat × α × ℚ))) :
    List (Stage α) → Nat → PipelineTQDM → List (Nat × α) →
    List (Nat × α) × PipelineTQDM × Option (RunExc α)
  | [], _, prog, data => (data, prog, none)
  | st :: rest, idx, prog, data =>
    let items := reorder idx
      (data.map (fun sv => process_item fe st.workerName st.proc (tm idx sv.1) sv))
    let r1 := process_stage prog idx items
    let r2 := runChain fe tm reorder rest (idx + 1) r1.2.1 r1.1
    (r2.1, r2.2.1, r2.2.2 <|> r1.2.2)

/-- How one call of `Pipeline.run` ends, as seen by the caller. -/
inductive RunOutcome (α : Type) where
  /-- `raise ValueError(...)` at line 184, before the `try` block. -/
  | configError (msg : String)
  /-- Normal completion. -/
  | ok
  /-- A `WorkerException` whose `str(orig_exc)` equals the sentinel's was
  caught at line 210 and *not* re-raised: the generator simply ends. -/
  | swallowed (e : WorkerException α)
  /-- The exception surfaced to the caller. -/
  | raised (e : RunExc α)
deriving DecidableEq, Repr

/-- Whether an exception reached the `except` handlers inside the `try`
block of `run` (pipeline.py lines 210-219) — exactly the situations in
which those handlers execute `force_exit.value = True`. -/
def outcomeIsFailure {α : Type} : RunOutcome α → Bool
  | RunOutcome.configError _ => false
  | RunOutcome.ok => false
  | RunOutcome.swallowed _ => true
  | RunOutcome.raised _ => true

/-- The observable effect of one `Pipeline.run` call: the payloads yielded to
the caller (in order), how the run ended, the value of the shared
`force_exit` flag afterwards, and how many worker pools `_init_pools`
created. -/
structure RunResult (α : Type) where
  outputs : List α
  outcome : RunOutcome α
  forceExitOut : Bool
  poolsCreated : Nat
deriving DecidableEq, Repr

/-- The `except WorkerException` handler of `run` (pipeline.py lines
210-214): sets `force_exit` to true, then re-raises unless
`str(e.orig_exc) == str(FORCE_EXIT_EXCEPTION)` — a comparison of message
strings, not of exception identities. -/
def handleWorkerException {α : Type} (e : WorkerException α)
    (outputs : List α) (pools : Nat) : RunResult α :=
  if e.orig_exc.msg = FORCE_EXIT_EXCEPTION.msg then
    ⟨outputs, RunOutcome.swallowed e, true, pools⟩
  else
    ⟨outputs, RunOutcome.raised (RunExc.workerExc e), true, pools⟩

/-- `Pipeline.run` (pipeline.py lines 171-224), driven to completion by a
consumer that pulls every result.  `hasLen` models `hasattr(inputs,
'__len__')`; `fe` is the value of the shared `force_exit` flag when the
workers read it; `reorder` is the identity on every stage when
`ordered_result=True`.  The empty-stage check precedes pool creation and
the `try` block, so it neither creates pools nor touches the flag.  The
`except` handlers (lines 210-219) set the flag and decide what surfaces. -/
def run {α : Type} (fe : Bool) (stages : List (Stage α)) (inputs : List α)
    (hasLen : Bool)
    (reorder : Nat → List (Except (WorkerException α) (Nat × α × ℚ)) →
      List (Except (WorkerException α) (Nat × α × ℚ)))
    (progress : ProgressMode) (tm : Nat → Nat → ℚ) : RunResult α :=
  if stages.isEmpty then
    ⟨[], RunOutcome.configError "Pipeline has no stages", fe, 0⟩
  else
    let total := if hasLen then some inputs.length else none
    let prog := PipelineTQDM.init stages.length
      (progress ≠ ProgressMode.pNone) (progress = ProgressMode.pStage) total
    let r := runChain fe tm reorder stages 0 prog inputs.enum
    let outputs := r.1.map Prod.snd
    match r.2.2 with
    | none => ⟨outputs, RunOutcome.ok, fe, stages.length⟩
    | some (RunExc.workerExc e) => handleWorkerException e outputs stages.length
    | some (RunExc.otherExc p) =>
      ⟨outputs, RunOutcome.raised (RunExc.otherExc p), true, stages.length⟩

/-- The interaction of `run`'s generator with a consumer that pulls `pulls`
results and then closes the iterator (CPython generator protocol): closing
a generator that was never started (`pulls = 0`) does not execute the body
at all, so nothing the body would do happens; closing one suspended at a
yield inside the `try` (which is where the generator sits after yielding
any of its `outputs`) raises `GeneratorExit` at that yield, and `except
BaseException` (line 216) catches it, sets `force_exit` to true and
re-raises.  If the consumer's pulls already finished the generator —
normally or by surfacing its exception — closing is a no-op and the flag
keeps the value `run` left in it.  Returns the flag value after the
close. -/
def runCloseAfter {α : Type} (fe : Bool) (stages : List (Stage α))
    (inputs : List α) (hasLen : Bool)
    (reorder : Nat → List (Except (WorkerException α) (Nat × α × ℚ)) →
      List (Except (WorkerException α) (Nat × α × ℚ)))
    (progress : ProgressMode) (tm : Nat → Nat → ℚ) (pulls : Nat) : Bool :=
  if pulls = 0 then fe
  else
    let r := run fe stages inputs hasLen reorder progress tm
    if pulls ≤ r.outputs.length then true
    else r.forceExitOut

/-- One worker slot of a pool: whether `_init_worker` stored a worker in the
slot's thread-local storage (`hasattr(_local, 'worker')`) and how many
times that worker's `__dispose__` hook has run. -/
structure Slot where
  constructed : Bool
  disposeCount : Nat
deriving DecidableEq, Repr

instance : Inhabited Slot := ⟨⟨false, 0⟩⟩

/-- `_cleanup_worker` (pipeline.py lines 32-35): disposes the slot's worker
if one exists.  The worker reference is not removed afterwards, so running
it again on the same slot disposes the same worker again. -/
def cleanup_worker (s : Slot) : Slot :=
  if s.constructed then ⟨s.constructed, s.disposeCount + 1⟩ else s

/-- The broadcast `pool.map(_cleanup_worker, [None] * pool._processes)`
(pipeline.py line 83): it submits `pool._processes` tasks, and the pool's
scheduler — not this code — decides which slot executes which task; `asg`
lists, in order, the slot index each task ran on.  Nothing in the code
constrains `asg` to hit each slot exactly once. -/
def broadcastCleanup (slots : List Slot) (asg : List Nat) : List Slot :=
  asg.foldl (fun sl i => sl.set i (cleanup_worker (sl.getD i default))) slots

/-- A pool as `_stop_pools` sees it: its slots, and `hasattr(pool, '_pool')`
(line 81). -/
structure PoolM where
  slots : List Slot
  hasPoolAttr : Bool
deriving DecidableEq, Repr

/-- Which of the teardown operations on one pool raise. -/
structure PoolFails where
  mapFails : Bool
  terminateFails : Bool
  closeFails : Bool
  joinFails : Bool
deriving DecidableEq, Repr

/-- Teardown of a single pool (the `_stop_pools` loop body, pipeline.py
lines 77-99): the disposal broadcast runs under a `try` whose handler is
`pass` (its failure is silent, and `asg` lists exactly the cleanup tasks
that actually ran); `terminate`/`close`/`join` run under a `try` whose
`except BaseException` issues one warning (line 92); the `finally` block
calls `terminate` again, swallowing any error with a bare `except: pass`.
Returns the pool's final state, the number of warnings emitted and the
number of `pool.terminate()` calls attempted (always 2: line 87 — reached
for every failure pattern, since broadcast errors are already caught — and
line 97). -/
def stopOnePool (p : PoolM) (f : PoolFails) (asg : List Nat) :
    PoolM × Nat × Nat :=
  let slots := if p.hasPoolAttr then broadcastCleanup p.slots asg else p.slots
  let warns := if f.terminateFails || f.closeFails || f.joinFails then 1 else 0
  (⟨slots, p.hasPoolAttr⟩, warns, 2)

/-- The result of `_stop_pools`: `pools` is `self._pools` afterwards (set to
`[]` at line 100); `stopped` holds the final states of the pools operated
on; `warnings` counts `warnings.warn` calls; `termAttempts` counts
`pool.terminate()` calls. -/
structure StopPoolsResult where
  pools : List PoolM
  stopped : List PoolM
  warnings : Nat
  termAttempts : Nat
deriving DecidableEq, Repr

/-- `Pipeline._stop_pools` (pipeline.py lines 75-100): iterates over
`self._pools`, tearing each pool down with every failure caught — so the
method itself never raises to its caller, which the total return type of
this translation reflects — then sets `self._pools = []`.  `f` and `asg`
give, for each pool index, which operations fail and which slots execute
its cleanup tasks. -/
def stop_pools (pools : List PoolM) (f : Nat → PoolFails)
    (asg : Nat → List Nat) : StopPoolsResult :=
  let rs := pools.enum.map (fun ip => stopOnePool ip.2 (f ip.1) (asg ip.1))
  ⟨[], rs.map Prod.fst, (rs.map (fun r => r.2.1)).sum,
    (rs.map (fun r => r.2.2)).sum⟩

/-- A universal payload type for concrete pipelines: the heterogeneous
int/string stage types of the scenario embed into this sum. -/
inductive Val where
  | vInt (n : Int)
  | vStr (s : String)
deriving DecidableEq, Repr

/-- Stage 1 of the spec scenario: doubles an integer. -/
def doubleF : Val → Val
  | Val.vInt n => Val.vInt (2 * n)
  | v => v

/-- Stage 2 of the spec scenario: adds 1. -/
def addOneF : Val → Val
  | Val.vInt n => Val.vInt (n + 1)
  | v => v

/-- Stage 3 of the spec scenario: converts to string. -/
def toStrF : Val → Val
  | Val.vInt n => Val.vStr (toString n)
  | v => v

/-- The 3-stage double / add-1 / to-string scenario pipeline. -/
def scenarioFs : List (String × (Val → Val)) :=
  [("Double", doubleF), ("AddOne", addOneF), ("ToStr", toStrF)]

/-- Build a stage list from worker names and pure `__process__` functions. -/
def stagesOf {α : Type} (fs : List (String × (α → α))) : List (Stage α) :=
  fs.map (fun p => pureStage p.1 p.2)

/-- Composition of the stage functions in stage order:
`composeStages [f1, ..., fK] x = fK (... (f1 x) ...)`. -/
def composeStages {α : Type} : List (α → α) → α → α
  | [] => id
  | f :: rest => composeStages rest ∘ f

theorem update_stage_progress_not_show (p : PipelineTQDM)
    (h : p.showProgress = false) (i : Nat) (t : ℚ) :
    p.update_stage_progress i t = Except.ok p := by
  simp [PipelineTQDM.update_stage_progress, h]

theorem process_stage_all_ok {α : Type} (p : PipelineTQDM)
    (h : p.showProgress = false) (i : Nat) (l : List (Nat × α × ℚ)) :
    process_stage p i (l.map Except.ok) =
      (l.map (fun it => (it.1, it.2.1)), p, none) := by
  induction l with
  | nil => simp [process_stage]
  | cons hd tl ih =>
    simp [process_stage, update_stage_progress_not_show p h, ih]

theorem process_item_pure {α : Type} (nm : String) (f : α → α) (t : ℚ)
    (sv : Nat × α) :
    process_item false nm (pureStage nm f).proc t sv =
      Except.ok (sv.1, f sv.2, t) := rfl

theorem runChain_pure {α : Type} (fs : List (String × (α → α)))
    (tm : Nat → Nat → ℚ) (p : PipelineTQDM) (h : p.showProgress = false)
    (idx : Nat) (data : List (Nat × α)) :
    runChain false tm (fun _ l => l) (stagesOf fs) idx p data =
      (data.map (fun sv => (sv.1, composeStages (fs.map Prod.snd) sv.2)),
        p, none) := by
  induction fs generalizing idx data with
  | nil => simp [runChain, stagesOf, composeStages]
  | cons hd tl ih =>
    have hitems :
        data.map (fun sv =>
          process_item false (pureStage hd.1 hd.2).workerName
            (pureStage hd.1 hd.2).proc (tm idx sv.1) sv) =
        (data.map (fun sv => (sv.1, hd.2 sv.2, tm idx sv.1))).map Except.ok := by
      rw [List.map_map]
      rfl
    simp only [stagesOf, List.map_cons, runChain]
    rw [hitems, process_stage_all_ok p h]
    have ih' := ih (idx + 1)
      ((data.map (fun sv => (sv.1, hd.2 sv.2, tm idx sv.1))).map
        (fun it => (it.1, it.2.1)))
    simp only [stagesOf] at ih'
    rw [ih']
    simp [List.map_map, composeStages, Function.comp]

/-- Claim C1: for every finite input sequence and every pipeline of K ≥ 1
stages whose workers' `__process__` hooks behave as pure functions
f₁, …, f_K that never raise, `run(inputs, ordered_result=True)` (with the
flag in its initial false state and the default `progress=None`) yields
exactly `[f_K(...f_1(x)...) for x in inputs]`, in input order, completing
normally and creating one pool per stage. -/
theorem run_ordered_pure_eq_map_compose {α : Type}
    (fs : List (String × (α → α))) (inputs : List α) (hasLen : Bool)
    (tm : Nat → Nat → ℚ) (h : fs ≠ []) :
    run false (stagesOf fs) inputs hasLen (fun _ l => l)
        ProgressMode.pNone tm =
      ⟨inputs.map (composeStages (fs.map Prod.snd)), RunOutcome.ok, false,
        fs.length⟩ := by
  have hne : (stagesOf fs).isEmpty = false := by
    cases fs with
    | nil => exact absurd rfl h
    | cons a l => simp [stagesOf]
  rw [run]
  rw [hne]
  simp only [Bool.false_eq_true, if_false]
  rw [runChain_pure fs tm _ (by simp [PipelineTQDM.init]) 0 inputs.enum]
  simp only [stagesOf, List.length_map]
  have hmaps :
      List.map Prod.snd
          (inputs.enum.map (fun sv =>
            (sv.1, composeStages (List.map Prod.snd fs) sv.2))) =
        List.map (composeStages (List.map Prod.snd fs)) inputs := by
    rw [List.map_map]
    have : (Prod.snd ∘ fun sv : Nat × α =>
        (sv.1, composeStages (List.map Prod.snd fs) sv.2)) =
        (composeStages (List.map Prod.snd fs)) ∘ Prod.snd := rfl
    rw [this, ← List.map_map, List.enum_map_snd]
  simp [hmaps]

/-- Witness for claim C1: the 3-stage double / add-1 / to-string pipeline on
input `[1,2,3]`, ordered, yields `["3","5","7"]`. -/
theorem run_ordered_pure_witness :
    run false (stagesOf scenarioFs) [Val.vInt 1, Val.vInt 2, Val.vInt 3]
        true (fun _ l => l) ProgressMode.pNone (fun _ _ => 1) =
      ⟨[Val.vStr "3", Val.vStr "5", Val.vStr "7"], RunOutcome.ok, false, 3⟩ :=
  (run_ordered_pure_eq_map_compose scenarioFs
    [Val.vInt 1, Val.vInt 2, Val.vInt 3] true (fun _ _ => 1)
    (by simp [scenarioFs])).trans (by rfl)

end MPipeline

namespace MPipeline

/-- Claim C4: for every (sequence, payload) pair dequeued by a worker slot
while the ForceExit flag is true, the slot fails fast with a
`WorkerException` wrapping the forced-shutdown sentinel (with no offending
input attached); the right-hand side does not depend on `proc`, so the
worker's `__process__` hook is never invoked on the payload. -/
theorem process_item_force_exit_fail_fast {α : Type} (nm : String)
    (proc : α → Except PyExc α) (t : ℚ) (sq : Nat) (v : α) :
    process_item true nm proc t (sq, v) =
      Except.error ⟨FORCE_EXIT_EXCEPTION, nm, none⟩ := rfl

/-- Claim C7: running a pipeline whose stage list is empty fails with the
configuration error `"Pipeline has no stages"` at run entry, with zero
worker pools created and the ForceExit flag untouched, for every input,
ordering mode and progress mode. -/
theorem run_empty_stages_config_error {α : Type} (fe : Bool)
    (inputs : List α) (hasLen : Bool)
    (reorder : Nat → List (Except (WorkerException α) (Nat × α × ℚ)) →
      List (Except (WorkerException α) (Nat × α × ℚ)))
    (progress : ProgressMode) (tm : Nat → Nat → ℚ) :
    run fe ([] : List (Stage α)) inputs hasLen reorder progress tm =
      ⟨[], RunOutcome.configError "Pipeline has no stages", fe, 0⟩ := rfl

theorem run_forceExitOut_eq {α : Type} (fe : Bool) (stages : List (Stage α))
    (inputs : List α) (hasLen : Bool)
    (reorder : Nat → List (Except (WorkerException α) (Nat × α × ℚ)) →
      List (Except (WorkerException α) (Nat × α × ℚ)))
    (progress : ProgressMode) (tm : Nat → Nat → ℚ) :
    (run fe stages inputs hasLen reorder progress tm).forceExitOut =
      (fe || outcomeIsFailure
        (run fe stages inputs hasLen reorder progress tm).outcome) := by
  rw [run]
  cases h : stages.isEmpty with
  | true => simp [outcomeIsFailure]
  | false =>
    simp only [Bool.false_eq_true, if_false]
    rcases hr : (runChain fe tm reorder stages 0
        (PipelineTQDM.init stages.length (decide (progress ≠ ProgressMode.pNone))
          (decide (progress = ProgressMode.pStage))
          (if hasLen then some inputs.length else none)) inputs.enum).2.2 with
      _ | e
    · simp [hr, outcomeIsFailure]
    · cases e with
      | workerExc w =>
        by_cases he : w.orig_exc.msg = FORCE_EXIT_EXCEPTION.msg <;>
          simp [hr, handleWorkerException, he, outcomeIsFailure]
      | otherExc p => simp [hr, outcomeIsFailure]

/-- Claim C5: the ForceExit flag is initialised to false at module load; the
flag after a run equals `fe || failure-observed`, so a true flag is never
reset, the flag flips to true exactly when an exception reaches `run`'s
handlers (idempotently — the swallowed-sentinel case also keeps it true),
and an exception-free run (including the config-error exit, which precedes
the `try` block) leaves the flag unchanged; closing the result iterator of
a run that started with the flag already true also leaves it true. -/
theorem force_exit_monotone_write_once {α : Type} (fe : Bool)
    (stages : List (Stage α)) (inputs : List α) (hasLen : Bool)
    (reorder : Nat → List (Except (WorkerException α) (Nat × α × ℚ)) →
      List (Except (WorkerException α) (Nat × α × ℚ)))
    (progress : ProgressMode) (tm : Nat → Nat → ℚ) (pulls : Nat) :
    force_exit_init = false ∧
    (run fe stages inputs hasLen reorder progress tm).forceExitOut =
      (fe || outcomeIsFailure
        (run fe stages inputs hasLen reorder progress tm).outcome) ∧
    runCloseAfter true stages inputs hasLen reorder progress tm pulls = true := by
  refine ⟨rfl, run_forceExitOut_eq fe stages inputs hasLen reorder progress tm, ?_⟩
  rw [runCloseAfter]
  by_cases hp : pulls = 0
  · simp [hp]
  · simp only [hp, if_false]
    by_cases hq : pulls ≤
        (run true stages inputs hasLen reorder progress tm).outputs.length
    · simp [hq]
    · simp [hq, run_forceExitOut_eq]

/-- Claim C2 (amended): for a worker failure raising `exc`, the controller
sets the ForceExit flag and then decides purely by *message* comparison
(`str(e.orig_exc) == str(FORCE_EXIT_EXCEPTION)`): the `WorkerException` is
suppressed when the messages coincide and is otherwise re-raised to the
caller carrying the original error, the failing worker's type name and the
offending input. -/
theorem run_worker_exception_msg_decides {α : Type} (exc : PyExc)
    (nm : String) (v : α) (hasLen : Bool) (tm : Nat → Nat → ℚ) :
    run false [failStage nm exc] [v] hasLen (fun _ l => l)
        ProgressMode.pNone tm =
      (if exc.msg = FORCE_EXIT_EXCEPTION.msg then
        ⟨[], RunOutcome.swallowed ⟨exc, nm, some v⟩, true, 1⟩
      else
        ⟨[], RunOutcome.raised (RunExc.workerExc ⟨exc, nm, some v⟩),
          true, 1⟩) := by
  by_cases he : exc.msg = FORCE_EXIT_EXCEPTION.msg <;>
    simp [run, runChain, process_stage, process_item, failStage,
      handleWorkerException, he, List.enum]

/-- Counterexample to claim C2 as stated: this `WorkerException` does not
wrap the internal forced-shutdown sentinel — its wrapped error is a
distinct exception object (identity 5) whose message merely coincides with
the sentinel's — yet the controller suppresses it instead of re-raising
it. -/
theorem run_sentinel_msg_counterexample :
    (run false [failStage "CopycatWorker" ⟨5, "Force exit signal received"⟩]
        [Val.vInt 0] true (fun _ l => l) ProgressMode.pNone
        (fun _ _ => 1)).outcome =
      RunOutcome.swallowed ⟨⟨5, "Force exit signal received"⟩,
        "CopycatWorker", some (Val.vInt 0)⟩ ∧
    (⟨5, "Force exit signal received"⟩ : PyExc) ≠ FORCE_EXIT_EXCEPTION := by
  decide

end MPipeline

namespace MPipeline

theorem filterMap_ok_eq {α : Type} (l : List (Nat × α × ℚ)) :
    (l.map (Except.ok :
        (Nat × α × ℚ) → Except (WorkerException α) (Nat × α × ℚ))).filterMap
        (fun x => x.toOption.map (fun it => (it.1, it.2.1))) =
      l.map (fun it => (it.1, it.2.1)) := by
  rw [List.filterMap_map]
  have heq : ((fun x : Except (WorkerException α) (Nat × α × ℚ) =>
      x.toOption.map (fun it => (it.1, it.2.1))) ∘ Except.ok) =
      some ∘ (fun it : Nat × α × ℚ => (it.1, it.2.1)) := rfl
  rw [heq, List.filterMap_eq_map]

theorem process_stage_all_ok_mem {α : Type} (p : PipelineTQDM)
    (h : p.showProgress = false) (i : Nat) :
    ∀ (items : List (Except (WorkerException α) (Nat × α × ℚ))),
    (∀ x ∈ items, ∃ y, x = Except.ok y) →
    process_stage p i items =
      (items.filterMap (fun x => x.toOption.map (fun it => (it.1, it.2.1))),
        p, none)
  | [], _ => by simp [process_stage]
  | Except.error e :: tl, hmem =>
    absurd (hmem _ (List.mem_cons_self _ _)) (by simp)
  | Except.ok y :: tl, hmem => by
    have ih := process_stage_all_ok_mem p h i tl
      (fun x hx => hmem x (List.mem_cons_of_mem _ hx))
    simp [process_stage, update_stage_progress_not_show p h, ih,
      Except.toOption]

theorem runChain_pure_perm {α : Type} (tm tm' : Nat → Nat → ℚ)
    (reorder : Nat → List (Except (WorkerException α) (Nat × α × ℚ)) →
      List (Except (WorkerException α) (Nat × α × ℚ)))
    (hre : ∀ i l, (reorder i l).Perm l)
    (p : PipelineTQDM) (h : p.showProgress = false) :
    ∀ (fs : List (String × (α → α))) (idx : Nat)
      (data data' : List (Nat × α)), data.Perm data' →
    ((runChain false tm reorder (stagesOf fs) idx p data).1.Perm
        (runChain false tm' (fun _ l => l) (stagesOf fs) idx p data').1 ∧
      (runChain false tm reorder (stagesOf fs) idx p data).2.2 = none)
  | [], idx, data, data', hdd => by
    constructor
    · simpa [runChain, stagesOf] using hdd
    · simp [runChain, stagesOf]
  | hd :: tl, idx, data, data', hdd => by
    have hitemsL :
        data.map (fun sv =>
          process_item false (pureStage hd.1 hd.2).workerName
            (pureStage hd.1 hd.2).proc (tm idx sv.1) sv) =
        (data.map (fun sv => (sv.1, hd.2 sv.2, tm idx sv.1))).map
          Except.ok := by
      rw [List.map_map]
      rfl
    have hitemsR :
        data'.map (fun sv =>
          process_item false (pureStage hd.1 hd.2).workerName
            (pureStage hd.1 hd.2).proc (tm' idx sv.1) sv) =
        (data'.map (fun sv => (sv.1, hd.2 sv.2, tm' idx sv.1))).map
          Except.ok := by
      rw [List.map_map]
      rfl
    have hL := hre idx
      ((data.map (fun sv => (sv.1, hd.2 sv.2, tm idx sv.1))).map Except.ok)
    have hmemL : ∀ x ∈ reorder idx
        ((data.map (fun sv => (sv.1, hd.2 sv.2, tm idx sv.1))).map Except.ok),
        ∃ y, x = Except.ok y := by
      intro x hx
      rcases List.mem_map.mp (hL.mem_iff.mp hx) with ⟨y, _, rfl⟩
      exact ⟨y, rfl⟩
    have heqL :
        List.filterMap
            (fun x : Except (WorkerException α) (Nat × α × ℚ) =>
              Option.map (fun it => (it.1, it.2.1)) x.toOption)
            ((data.map (fun sv => (sv.1, hd.2 sv.2, tm idx sv.1))).map
              Except.ok) =
          data.map (fun sv => (sv.1, hd.2 sv.2)) := by
      rw [filterMap_ok_eq, List.map_map]
      rfl
    have hmapR :
        (data'.map (fun sv => (sv.1, hd.2 sv.2, tm' idx sv.1))).map
            (fun it : Nat × α × ℚ => (it.1, it.2.1)) =
          data'.map (fun sv => (sv.1, hd.2 sv.2)) := by
      rw [List.map_map]
      rfl
    have h1 := hL.filterMap
      (fun x : Except (WorkerException α) (Nat × α × ℚ) =>
        Option.map (fun it => (it.1, it.2.1)) x.toOption)
    rw [heqL] at h1
    have houtperm :
        (List.filterMap
            (fun x : Except (WorkerException α) (Nat × α × ℚ) =>
              Option.map (fun it => (it.1, it.2.1)) x.toOption)
            (reorder idx ((data.map
              (fun sv => (sv.1, hd.2 sv.2, tm idx sv.1))).map
                Except.ok))).Perm
          ((data'.map (fun sv => (sv.1, hd.2 sv.2, tm' idx sv.1))).map
            (fun it : Nat × α × ℚ => (it.1, it.2.1))) := by
      rw [hmapR]
      exact h1.trans (hdd.map _)
    have ihres := runChain_pure_perm tm tm' reorder hre p h tl (idx + 1) _ _
      houtperm
    simp only [stagesOf, List.map_cons, runChain]
    rw [hitemsL, hitemsR, process_stage_all_ok_mem p h idx _ hmemL,
      process_stage_all_ok p h idx]
    simp only [stagesOf] at ihres
    exact ⟨ihres.1, by rw [ihres.2]; rfl⟩

/-- Claim C6 (amended): for pipelines whose workers never fail, the
multiset of payloads yielded in unordered mode (any completion order,
i.e. any permutation-valid reordering of each stage's result stream)
equals the multiset yielded in ordered mode on the same inputs and stages;
elapsed-time measurements may also differ between the two runs. -/
theorem run_unordered_perm_of_ordered {α : Type}
    (fs : List (String × (α → α))) (inputs : List α) (hasLen : Bool)
    (reorder : Nat → List (Except (WorkerException α) (Nat × α × ℚ)) →
      List (Except (WorkerException α) (Nat × α × ℚ)))
    (tm tm' : Nat → Nat → ℚ) (hre : ∀ i l, (reorder i l).Perm l) :
    ((run false (stagesOf fs) inputs hasLen reorder
        ProgressMode.pNone tm).outputs).Perm
      ((run false (stagesOf fs) inputs hasLen (fun _ l => l)
        ProgressMode.pNone tm').outputs) := by
  cases fs with
  | nil => simp [run, stagesOf]
  | cons hd tl =>
    have hne : (stagesOf (hd :: tl)).isEmpty = false := by simp [stagesOf]
    have hp : (PipelineTQDM.init (stagesOf (hd :: tl)).length
        (decide (ProgressMode.pNone ≠ ProgressMode.pNone))
        (decide (ProgressMode.pNone = ProgressMode.pStage))
        (if hasLen then some inputs.length else none)).showProgress =
        false := by
      simp [PipelineTQDM.init]
    obtain ⟨hperm, hexcL⟩ := runChain_pure_perm tm tm' reorder hre _ hp
      (hd :: tl) 0 inputs.enum inputs.enum (List.Perm.refl _)
    have hR := runChain_pure (hd :: tl) tm' _ hp 0 inputs.enum
    have hexcR : (runChain false tm' (fun _ l => l) (stagesOf (hd :: tl)) 0
        (PipelineTQDM.init (stagesOf (hd :: tl)).length
          (decide (ProgressMode.pNone ≠ ProgressMode.pNone))
          (decide (ProgressMode.pNone = ProgressMode.pStage))
          (if hasLen then some inputs.length else none))
        inputs.enum).2.2 = none := by
      rw [hR]
    rw [run, run, hne]
    simp only [Bool.false_eq_true, if_false]
    rw [hexcL, hexcR]
    exact hperm.map Prod.snd

/-- Witness for claim C6 (amended): the scenario pipeline on `[1,2,3]` with
reversed completion order at every stage yields a permutation of the
ordered outputs. -/
theorem run_unordered_perm_witness :
    ((run false (stagesOf scenarioFs) [Val.vInt 1, Val.vInt 2, Val.vInt 3]
        true (fun _ l => l.reverse) ProgressMode.pNone
        (fun _ _ => 1)).outputs).Perm
      ((run false (stagesOf scenarioFs) [Val.vInt 1, Val.vInt 2, Val.vInt 3]
        true (fun _ l => l) ProgressMode.pNone (fun _ _ => 2)).outputs) :=
  run_unordered_perm_of_ordered scenarioFs
    [Val.vInt 1, Val.vInt 2, Val.vInt 3] true (fun _ l => l.reverse)
    (fun _ _ => 1) (fun _ _ => 2) (fun _ l => List.reverse_perm l)

/-- Counterexample to claim C6 as stated: with a worker that fails on the
first input, a completion order that delivers the second item's result
before the first item's exception makes the unordered run yield `[2]`
while the ordered run yields `[]` before raising — the multisets differ,
so the claim is false for pipelines with failing workers. -/
theorem run_unordered_failure_multiset_counterexample :
    (run false [failOnStage "W" ⟨7, "boom"⟩ (Val.vInt 1)]
        [Val.vInt 1, Val.vInt 2] true (fun _ l => l.reverse)
        ProgressMode.pNone (fun _ _ => 1)).outputs = [Val.vInt 2] ∧
    (run false [failOnStage "W" ⟨7, "boom"⟩ (Val.vInt 1)]
        [Val.vInt 1, Val.vInt 2] true (fun _ l => l)
        ProgressMode.pNone (fun _ _ => 1)).outputs = [] ∧
    ¬ (([Val.vInt 2] : List Val).Perm []) := by
  refine ⟨by decide, by decide, by decide⟩

end MPipeline

namespace MPipeline

theorem cleanup_worker_constructed (s : Slot) :
    (cleanup_worker s).constructed = s.constructed := by
  by_cases h : s.constructed <;> simp [cleanup_worker, h]

theorem getD_set_self {γ : Type} [Inhabited γ] (l : List γ) (i : Nat) (x : γ)
    (h : i < l.length) : (l.set i x).getD i default = x := by
  simp [List.getD, h]

theorem getD_set_ne {γ : Type} [Inhabited γ] (l : List γ) (i j : Nat) (x : γ)
    (h : i ≠ j) : (l.set i x).getD j default = l.getD j default := by
  simp [List.getD, List.getElem?_set_ne h]

theorem broadcastCleanup_spec :
    ∀ (asg : List Nat) (slots : List Slot) (i : Nat), i < slots.length →
    ((broadcastCleanup slots asg).getD i default).disposeCount =
      (slots.getD i default).disposeCount +
        (if (slots.getD i default).constructed then asg.count i else 0) ∧
    ((broadcastCleanup slots asg).getD i default).constructed =
      (slots.getD i default).constructed
  | [], slots, i, _ => by simp [broadcastCleanup]
  | a :: rest, slots, i, hi => by
    have hlen : (slots.set a (cleanup_worker (slots.getD a default))).length =
        slots.length := List.length_set slots a _
    have ih := broadcastCleanup_spec rest
      (slots.set a (cleanup_worker (slots.getD a default))) i
      (by rw [hlen]; exact hi)
    have hstep : broadcastCleanup slots (a :: rest) =
        broadcastCleanup
          (slots.set a (cleanup_worker (slots.getD a default))) rest := rfl
    rw [hstep]
    by_cases hia : i = a
    · subst hia
      have hget : (slots.set i (cleanup_worker (slots.getD i default))).getD
          i default = cleanup_worker (slots.getD i default) :=
        getD_set_self slots i _ hi
      rw [hget, cleanup_worker_constructed] at ih
      have hcnt : (i :: rest).count i = rest.count i + 1 := by
        simp [List.count_cons]
      refine ⟨?_, ih.2⟩
      rw [ih.1, hcnt]
      cases hc : (slots.getD i default).constructed with
      | false =>
        have hcw : cleanup_worker (slots.getD i default) =
            slots.getD i default := by
          unfold cleanup_worker
          rw [hc]
          simp
        rw [hcw]
        simp
      | true =>
        have hcw : (cleanup_worker (slots.getD i default)).disposeCount =
            (slots.getD i default).disposeCount + 1 := by
          unfold cleanup_worker
          rw [hc]
          simp
        rw [hcw]
        simp
        omega
    · have hget : (slots.set a (cleanup_worker (slots.getD a default))).getD
          i default = slots.getD i default :=
        getD_set_ne slots a i _ (fun hh => hia hh.symm)
      rw [hget] at ih
      refine ⟨?_, ih.2⟩
      rw [ih.1]
      have hcnt : (a :: rest).count i = rest.count i := by
        simp [List.count_cons, hia]
      rw [hcnt]

/-- Counterexample to claim C3 as stated: a disposal broadcast of two
cleanup tasks over two constructed slots in which the pool's scheduler runs
both tasks on slot 0 — legal, since `pool.map` gives the tasks no slot
affinity — disposes slot 0's worker twice and slot 1's worker not at all,
although both slots were constructed during the run. -/
theorem broadcast_cleanup_double_dispose_counterexample :
    broadcastCleanup [⟨true, 0⟩, ⟨true, 0⟩] [0, 0] =
      [⟨true, 2⟩, ⟨true, 0⟩] ∧
    ([0, 0] : List Nat).length =
      ([(⟨true, 0⟩ : Slot), ⟨true, 0⟩] : List Slot).length := by
  refine ⟨by decide, by decide⟩

/-- Claim C3 (amended): each cleanup task of the teardown broadcast disposes
the worker of the slot that executes it (if that slot constructed one);
a constructed worker is disposed exactly once precisely when exactly one
broadcast task runs on its slot — in particular whenever the
`pool._processes` tasks are executed by pairwise-distinct slots (an
assignment that is a permutation of the slot indices). -/
theorem broadcast_cleanup_distinct_slots_exactly_once (slots : List Slot)
    (asg : List Nat) (hasg : asg.Perm (List.range slots.length))
    (i : Nat) (hi : i < slots.length)
    (hzero : (slots.getD i default).disposeCount = 0) :
    ((broadcastCleanup slots asg).getD i default).disposeCount =
      (if (slots.getD i default).constructed then 1 else 0) := by
  have h := (broadcastCleanup_spec asg slots i hi).1
  have hcount : asg.count i = 1 := by
    rw [hasg.count_eq]
    exact List.count_eq_one_of_mem (List.nodup_range _)
      (List.mem_range.mpr hi)
  rw [h, hzero, hcount]
  simp

/-- Witness for claim C3 (amended): two slots, the first with a constructed
worker, cleanup tasks run on distinct slots 1 then 0: the constructed
worker is disposed exactly once. -/
theorem broadcast_cleanup_distinct_slots_witness :
    ((broadcastCleanup [⟨true, 0⟩, ⟨false, 0⟩] [1, 0]).getD 0
        default).disposeCount = 1 :=
  (broadcast_cleanup_distinct_slots_exactly_once
    [⟨true, 0⟩, ⟨false, 0⟩] [1, 0] (by decide) 0 (by decide)
    (by decide)).trans (by decide)

theorem sum_map_le_length : ∀ (l : List Nat), (∀ x ∈ l, x ≤ 1) →
    l.sum ≤ l.length
  | [], _ => by simp
  | x :: tl, h => by
    have hx := h x (List.mem_cons_self x tl)
    have ih := sum_map_le_length tl (fun y hy => h y (List.mem_cons_of_mem _ hy))
    simp only [List.sum_cons, List.length_cons]
    omega

theorem sum_map_const_two {β : Type} : ∀ (l : List β),
    (l.map (fun _ => (2 : Nat))).sum = 2 * l.length
  | [] => by simp
  | x :: tl => by
    have ih := sum_map_const_two tl
    simp only [List.map_cons, List.sum_cons, List.length_cons, ih]
    omega

/-- Claim C8: `_stop_pools` never raises to the caller regardless of which
disposal, terminate, close or join operations fail — every failure pattern
yields an ordinary result whose warning count is bounded by the number of
pools — it empties the pool list, a second invocation performs no pool
operation, warns nothing and cannot double-terminate (the structural
double-terminate within one call — `termAttempts = 2 *` pool count — has
its second attempt's errors swallowed by the bare `except`). -/
theorem stop_pools_never_raises_idempotent (pools : List PoolM)
    (f f2 : Nat → PoolFails) (asg asg2 : Nat → List Nat) :
    (stop_pools pools f asg).pools = [] ∧
    stop_pools (stop_pools pools f asg).pools f2 asg2 =
      ⟨[], [], 0, 0⟩ ∧
    (stop_pools pools f asg).warnings ≤ pools.length ∧
    (stop_pools pools f asg).termAttempts = 2 * pools.length := by
  refine ⟨rfl, rfl, ?_, ?_⟩
  · have hb : ∀ x ∈ (pools.enum.map
        (fun ip => stopOnePool ip.2 (f ip.1) (asg ip.1))).map
          (fun r => r.2.1), x ≤ 1 := by
      intro x hx
      rw [List.map_map] at hx
      rcases List.mem_map.mp hx with ⟨ip, _, rfl⟩
      simp only [Function.comp_apply, stopOnePool]
      split <;> simp
    have := sum_map_le_length _ hb
    simpa [stop_pools] using this
  · show ((pools.enum.map
      (fun ip => stopOnePool ip.2 (f ip.1) (asg ip.1))).map
        (fun r => r.2.2)).sum = 2 * pools.length
    rw [List.map_map]
    have : ((fun (r : PoolM × Nat × Nat) => r.2.2) ∘
        (fun ip : Nat × PoolM => stopOnePool ip.2 (f ip.1) (asg ip.1))) =
        (fun _ : Nat × PoolM => (2 : Nat)) := rfl
    rw [this, sum_map_const_two, List.enum_length]

/-- Claim C9 (code bug): with a 1-stage identity pipeline, one input of
known length and every measured elapsed time equal to zero,
`progress='stage'` makes the run raise `ZeroDivisionError` (the
`1/rate` in `update_stage_progress` divides by `rate = 0` because the
average recorded time is not positive) and yield nothing, while the same
run with `progress=None` succeeds and yields the item — so the progress
argument does influence the data outputs. -/
theorem progress_stage_zero_time_divergence :
    run false (stagesOf [("W", fun v : Val => v)]) [Val.vInt 5] true
        (fun _ l => l) ProgressMode.pStage (fun _ _ => 0) =
      ⟨[], RunOutcome.raised (RunExc.otherExc ZERO_DIVISION_ERROR),
        true, 1⟩ ∧
    run false (stagesOf [("W", fun v : Val => v)]) [Val.vInt 5] true
        (fun _ l => l) ProgressMode.pNone (fun _ _ => 0) =
      ⟨[Val.vInt 5], RunOutcome.ok, false, 1⟩ := by
  constructor
  · have hne : ¬ (ProgressMode.pStage = ProgressMode.pNone) := by decide
    norm_num [run, runChain, process_stage, process_item, stagesOf,
      pureStage, PipelineTQDM.init, PipelineTQDM.update_stage_progress,
      PipelineTQDM.stagePbarsNonempty, List.enum, List.enumFrom, hne]
  · decide

/-- Counterexample to claim C10 as stated: the caller abandons the iterator
before exhausting it — here, closing it before pulling anything, while the
run would have produced one output — and the ForceExit flag stays false:
closing a never-started generator does not execute the body, so the
`except BaseException` handler never runs and no flag is set. -/
theorem run_close_unstarted_counterexample :
    runCloseAfter false (stagesOf [("W", fun v : Val => v)]) [Val.vInt 5]
        true (fun _ l => l) ProgressMode.pNone (fun _ _ => 1) 0 = false ∧
    (run false (stagesOf [("W", fun v : Val => v)]) [Val.vInt 5] true
        (fun _ l => l) ProgressMode.pNone
        (fun _ _ => 1)).outputs.length = 1 := by
  refine ⟨rfl, by decide⟩

/-- Claim C10 (amended): if the caller pulled at least one result and then
closes the iterator before the generator has finished, the except
BaseException handler sets the process-wide force_exit flag to true even
though no fatal worker failure occurred; with the flag true, every worker
slot that subsequently dequeues an item — in any later run of the same
host process — fails fast with the forced-shutdown sentinel instead of
invoking its `__process__` hook. -/
theorem run_close_after_pull_sets_force_exit {α : Type} (fe : Bool)
    (stages : List (Stage α)) (inputs : List α) (hasLen : Bool)
    (reorder : Nat → List (Except (WorkerException α) (Nat × α × ℚ)) →
      List (Except (WorkerException α) (Nat × α × ℚ)))
    (progress : ProgressMode) (tm : Nat → Nat → ℚ) (pulls : Nat)
    (h1 : 1 ≤ pulls)
    (h2 : pulls ≤
      (run fe stages inputs hasLen reorder progress tm).outputs.length) :
    runCloseAfter fe stages inputs hasLen reorder progress tm pulls = true ∧
    ∀ (nm : String) (proc : α → Except PyExc α) (t : ℚ) (sq : Nat) (v : α),
      process_item true nm proc t (sq, v) =
        Except.error ⟨FORCE_EXIT_EXCEPTION, nm, none⟩ := by
  refine ⟨?_, fun nm proc t sq v => rfl⟩
  rw [runCloseAfter]
  have hnz : ¬ (pulls = 0) := by omega
  simp [hnz, h2]

/-- Witness for claim C10 (amended): a 1-stage identity run over one input;
pulling the single output and then closing sets the flag, after which a
dequeued item fails fast with the sentinel. -/
theorem run_close_after_pull_witness :
    runCloseAfter false (stagesOf [("W", fun v : Val => v)]) [Val.vInt 5]
        true (fun _ l => l) ProgressMode.pNone (fun _ _ => 1) 1 = true ∧
    process_item true "W" (fun v : Val => Except.ok v) 1 (0, Val.vInt 5) =
      Except.error ⟨FORCE_EXIT_EXCEPTION, "W", none⟩ := by
  have h := run_close_after_pull_sets_force_exit false
    (stagesOf [("W", fun v : Val => v)]) [Val.vInt 5] true (fun _ l => l)
    ProgressMode.pNone (fun _ _ => 1) 1 (by decide) (by decide)
  exact ⟨h.1, h.2 "W" (fun v => Except.ok v) 1 0 (Val.vInt 5)⟩

end MPipeline
